import Mathlib

/-! Shallow embedding of the frontmatter conversion core of the `ruler` tool
(src/parser/common.rs, src/parser/c2g.rs, src/parser/g2c.rs).

Strings are modelled by Lean `String`; the string primitives used by the
source (trimming, splitting, affix tests) are defined here by structural
recursion over the character list so that every definition evaluates
inside the kernel. All characters relevant to index arithmetic are one
UTF-8 byte wide, so Rust byte slicing at quote boundaries coincides with
character indexing. A Rust panic is modelled by `Option.none` at the
function that can panic.
-/

namespace Ruler

/-- The single-quote character as a one-character string. -/
def squoteStr : String := "\x27"

/-- The double-quote character as a one-character string. -/
def dquoteStr : String := "\x22"

/-- Unicode White_Space, the trimming predicate of Rust `str::trim`.
`Char.isWhitespace` covers space, tab, carriage return and line feed;
the remaining White_Space code points are listed explicitly. -/
def isRustWhitespace (c : Char) : Bool :=
  c.isWhitespace || c = '\x0b' || c = '\x0c' || c = '\x85' || c = '\xa0'
    || c = '\u1680' || (0x2000 ≤ c.toNat && c.toNat ≤ 0x200a)
    || c = '\u2028' || c = '\u2029' || c = '\u202f' || c = '\u205f' || c = '\u3000'

/-- Both-ends trimming on a character list. -/
def trimChars (cs : List Char) : List Char :=
  ((cs.dropWhile isRustWhitespace).reverse.dropWhile isRustWhitespace).reverse

/-- Model of Rust `str::trim`. -/
def strTrim (s : String) : String := String.mk (trimChars s.toList)

/-- Model of Rust `str::trim_start`. -/
def strTrimLeft (s : String) : String :=
  String.mk (s.toList.dropWhile isRustWhitespace)

/-- Whether the first list begins with the second. -/
def startsWithChars : List Char → List Char → Bool
  | _, [] => true
  | [], _ :: _ => false
  | a :: as, b :: bs => a = b && startsWithChars as bs

/-- Model of Rust `str::starts_with`. -/
def strStartsWith (s pre : String) : Bool :=
  startsWithChars s.toList pre.toList

/-- Model of Rust `str::ends_with`. -/
def strEndsWith (s suf : String) : Bool :=
  startsWithChars s.toList.reverse suf.toList.reverse

/-- Whether the pattern occurs as a contiguous segment of the list. -/
def containsSeg (l pat : List Char) : Bool :=
  match l with
  | [] => pat.isEmpty
  | _ :: rest => startsWithChars l pat || containsSeg rest pat

/-- Model of Rust `str::contains` for a string pattern. -/
def strContainsSeg (s pat : String) : Bool :=
  containsSeg s.toList pat.toList

/-- Model of Rust `str::contains` for a character pattern. -/
def strContainsChar (s : String) (c : Char) : Bool :=
  s.toList.any (fun a => a = c)

/-- Model of Rust `str::is_empty`. -/
def strIsEmpty (s : String) : Bool := s.toList.isEmpty

/-- Model of Rust `str::split` on a character separator: `n` separator
occurrences yield `n + 1` pieces, empty pieces included. -/
def splitOnChar : List Char → Char → List (List Char)
  | [], _ => [[]]
  | c :: cs, sep =>
    if c = sep then [] :: splitOnChar cs sep
    else
      match splitOnChar cs sep with
      | [] => [[c]]
      | piece :: rest => (c :: piece) :: rest

/-- String-level wrapper of `splitOnChar`. -/
def strSplitOn (s : String) (sep : Char) : List String :=
  (splitOnChar s.toList sep).map String.mk

/-- Joining with a separator, Rust `[String]::join` or `format` reuse. -/
def joinSep (sep : String) : List String → String
  | [] => ""
  | [x] => x
  | x :: y :: rest => x ++ sep ++ joinSep sep (y :: rest)

/-- Concatenation of a list of strings. -/
def concatAll (l : List String) : String := l.foldl (fun a b => a ++ b) ""

/-- Model of Rust `str::lines`: split on newline, drop the trailing empty
piece produced by a final newline, and strip a trailing carriage return
from each line. -/
def rlines (s : String) : List String :=
  if s = "" then []
  else
    let parts := strSplitOn s '\n'
    let parts := if strEndsWith s "\n" then parts.dropLast else parts
    parts.map (fun l => if strEndsWith l "\r" then String.mk l.toList.dropLast else l)

/-- Schema A record, `CursorMetadata` in src/parser/common.rs. -/
structure CursorMetadata where
  name : Option String
  description : Option String
  globs : Option (List String)
  always_apply : Option Bool
  authors : Option (List String)
  tags : Option (List String)
  version : Option String
deriving DecidableEq, Repr

/-- Model of `CursorMetadata::default()`: every field absent. -/
def CursorMetadata.mkDefault : CursorMetadata :=
  ⟨none, none, none, none, none, none, none⟩

/-- Schema B record, `GithubMetadata` in src/parser/common.rs, with the
two presence flags carried alongside. -/
structure GithubMetadata where
  description : Option String
  apply_to : Option String
  description_present : Bool
  apply_to_present : Bool
deriving DecidableEq, Repr

/-- Record `FieldInfo` in src/parser/common.rs. -/
structure FieldInfo where
  description_present : Bool
  globs_present : Bool
deriving DecidableEq, Repr

/-- Model of `FieldInfo::default()`. -/
def FieldInfo.mkDefault : FieldInfo := ⟨false, false⟩

/-- The shapes of YAML value the `deserialize_globs` visitor can receive:
a scalar string, a sequence of strings, or a null/absent value. -/
inductive GlobsValue where
  | vstr (s : String)
  | vseq (items : List String)
  | vnull
deriving DecidableEq, Repr

/-- The quote-stripping step of `deserialize_globs` (common.rs lines
72-78 and 84-90): when the string starts and ends with the same quote
character, Rust takes the byte slice from index 1 to length minus 1.
For a one-character quote string that slice is `[1..0]`, which panics;
the panic is modelled by `none`. -/
def removeSurroundingQuotes (s : String) : Option String :=
  if (strStartsWith s dquoteStr && strEndsWith s dquoteStr)
      || (strStartsWith s squoteStr && strEndsWith s squoteStr) then
    if 2 ≤ s.toList.length then some (String.mk ((s.toList.drop 1).dropLast)) else none
  else some s

/-- Per-piece cleanup in the comma branch of `visit_str`: trim, then
strip one layer of surrounding quotes. -/
def cleanGlobItem (s : String) : Option String :=
  removeSurroundingQuotes (strTrim s)

/-- Map `cleanGlobItem` over the comma-split pieces, propagating a panic. -/
def mapCleanGlobs : List String → Option (List String)
  | [] => some []
  | s :: rest =>
    match cleanGlobItem s, mapCleanGlobs rest with
    | some c, some cs => some (c :: cs)
    | _, _ => none

/-- Function `visit_str` of the globs visitor (common.rs lines 62-93): a string
with a comma is split on commas, each piece trimmed and unquoted, blank
pieces filtered; a string without a comma is unquoted and becomes a
one-element list. `none` models a Rust panic. -/
def visitGlobsStr (value : String) : Option (List String) :=
  if strContainsChar value ',' then
    (mapCleanGlobs (strSplitOn value ',')).map
      (fun gs => gs.filter (fun s => !strIsEmpty s))
  else
    (removeSurroundingQuotes value).map (fun c => [c])

/-- Function `deserialize_globs` (common.rs lines 46-122) as a function of the
received YAML value shape. The outer `Option` models a Rust panic; the
inner `Option` is the deserialized `Option<Vec<String>>`. -/
def deserialize_globs : GlobsValue → Option (Option (List String))
  | GlobsValue.vstr s => (visitGlobsStr s).map some
  | GlobsValue.vseq items => some (some items)
  | GlobsValue.vnull => some none

/-- Scan for the closing delimiter (common.rs lines 181-187): the loop
over `lines.iter().enumerate().skip(1)` looking for the first line whose
trim equals three hyphens. `ls` is the list of lines from index `i` on. -/
def findDelimAux : List String → Nat → Option Nat
  | [], _ => none
  | l :: ls, i => if strTrim l = "---" then some i else findDelimAux ls (i + 1)

/-- Index of the closing delimiter line, scanning from line index 1. -/
def find_frontmatter_end (lines : List String) : Option Nat :=
  findDelimAux (lines.drop 1) 1

/-- Function `analyze_frontmatter_fields` (common.rs lines 213-226): a shallow
textual scan recording which recognized keys appear as a trimmed line
beginning with `description:` or `globs:`. -/
def analyze_frontmatter_fields (frontmatter : String) : FieldInfo :=
  (rlines frontmatter).foldl
    (fun info line =>
      if strStartsWith (strTrim line) "description:" then
        { info with description_present := true }
      else if strStartsWith (strTrim line) "globs:" then
        { info with globs_present := true }
      else info)
    FieldInfo.mkDefault

/-- Function `parse_frontmatter_with_field_info` (common.rs lines 168-205): trim,
require the three-hyphen opening, require at least 3 lines, find the
closing delimiter, and split into header, body and field presence. -/
def parse_frontmatter_with_field_info (content : String) :
    Option String × String × FieldInfo :=
  let trimmed := strTrim content
  if strStartsWith trimmed "---" then
    let lines := rlines trimmed
    if lines.length < 3 then (none, trimmed, FieldInfo.mkDefault)
    else
      match find_frontmatter_end lines with
      | some e =>
        let frontmatter := joinSep "\n" ((lines.drop 1).take (e - 1))
        let body :=
          if e + 1 < lines.length then strTrimLeft (joinSep "\n" (lines.drop (e + 1)))
          else ""
        (some frontmatter, body, analyze_frontmatter_fields frontmatter)
      | none => (none, trimmed, FieldInfo.mkDefault)
  else (none, trimmed, FieldInfo.mkDefault)

/-- Function `parse_frontmatter` (common.rs lines 163-166). -/
def parse_frontmatter (content : String) : Option String × String :=
  ((parse_frontmatter_with_field_info content).1,
   (parse_frontmatter_with_field_info content).2.1)

/-- Split a line at its first colon (common.rs line 232,
`line.find(..)` on the colon): key before, remainder after. -/
def splitAtFirstColon (line : String) : Option (String × String) :=
  match strSplitOn line ':' with
  | [] => none
  | [_] => none
  | key :: rest => some (key, joinSep ":" rest)

/-- The two-character-quoted comma patterns of common.rs line 245. -/
def dQuoteCommaQuote : String := dquoteStr ++ ", " ++ dquoteStr

/-- The single-quote variant of the pattern of common.rs line 245. -/
def sQuoteCommaQuote : String := squoteStr ++ ", " ++ squoteStr

/-- The array-item computation of `preprocess_frontmatter` (common.rs
lines 242-270) on a trimmed globs value that contains a comma and does
not start with a bracket. -/
def preprocessGlobsValue (value : String) : List String :=
  if strContainsSeg value dQuoteCommaQuote || strContainsSeg value sQuoteCommaQuote then
    ((strSplitOn value ',').map strTrim).filter (fun s => !strIsEmpty s)
  else
    let unquoted :=
      if (strStartsWith value dquoteStr && strEndsWith value dquoteStr)
          || (strStartsWith value squoteStr && strEndsWith value squoteStr) then
        String.mk ((value.toList.drop 1).dropLast)
      else value
    (((strSplitOn unquoted ',').map strTrim).filter (fun s => !strIsEmpty s)).map
      (fun item => dquoteStr ++ item ++ dquoteStr)

/-- One line of `preprocess_frontmatter` (common.rs lines 231-282): a
globs line whose trimmed value contains a comma and is not already
bracketed is rewritten to a bracketed list, unless no items survive;
every other line passes through with a newline appended. -/
def preprocessLine (line : String) : String :=
  match splitAtFirstColon line with
  | some (key, rawValue) =>
    let value := strTrim rawValue
    if strTrim key = "globs" ∧ strContainsChar value ',' = true
        ∧ strStartsWith value "[" = false then
      let arrayItems := preprocessGlobsValue value
      if !arrayItems.isEmpty then
        key ++ ": [" ++ joinSep ", " arrayItems ++ "]\n"
      else line ++ "\n"
    else line ++ "\n"
  | none => line ++ "\n"

/-- Function `preprocess_frontmatter` (common.rs lines 228-285). -/
def preprocess_frontmatter (frontmatter : String) : String :=
  concatAll ((rlines frontmatter).map preprocessLine)

/-- A line on which the normalizer has nothing to rewrite: either it has
no colon, or its key is not globs, or its trimmed value has no comma, or
the trimmed value already starts with an opening bracket. -/
def globsLineReady (line : String) : Bool :=
  match splitAtFirstColon line with
  | some kv =>
    decide (¬ (strTrim kv.1 = "globs" ∧ strContainsChar (strTrim kv.2) ',' = true
        ∧ strStartsWith (strTrim kv.2) "[" = false))
  | none => true

/-- The metadata translation of `convert_mdc_to_md` (c2g.rs lines
93-108): schema A to schema B. -/
def convert_metadata_c2g (cursor_meta : CursorMetadata) (field_info : FieldInfo) :
    GithubMetadata :=
  { description := cursor_meta.description
    apply_to :=
      if cursor_meta.always_apply = some true then some "**"
      else
        match cursor_meta.globs with
        | some globs => if !globs.isEmpty then some (joinSep "," globs) else none
        | none => none
    description_present := field_info.description_present
    apply_to_present := field_info.globs_present }

/-- The description part of `serialize_github_metadata` (c2g.rs lines
132-144). -/
def serializeDescription (meta : GithubMetadata) : String :=
  if meta.description_present then
    match meta.description with
    | some desc =>
      if strIsEmpty desc then "description:\n"
      else "description: " ++ dquoteStr ++ desc ++ dquoteStr ++ "\n"
    | none => "description:\n"
  else
    match meta.description with
    | some desc => "description: " ++ dquoteStr ++ desc ++ dquoteStr ++ "\n"
    | none => ""

/-- The applyTo part of `serialize_github_metadata` (c2g.rs lines
146-158). -/
def serializeApplyTo (meta : GithubMetadata) : String :=
  if meta.apply_to_present then
    match meta.apply_to with
    | some a =>
      if strIsEmpty a then "applyTo:\n"
      else "applyTo: " ++ dquoteStr ++ a ++ dquoteStr ++ "\n"
    | none => "applyTo:\n"
  else
    match meta.apply_to with
    | some a => "applyTo: " ++ dquoteStr ++ a ++ dquoteStr ++ "\n"
    | none => ""

/-- Function `serialize_github_metadata` (c2g.rs lines 129-161): the description
section followed by the applyTo section. -/
def serialize_github_metadata (meta : GithubMetadata) : String :=
  serializeDescription meta ++ serializeApplyTo meta

/-- The metadata translation of `convert_md_to_mdc` (g2c.rs lines
95-108): schema B to schema A, starting from the default record with
the description copied over. -/
def convert_metadata_g2c (github_meta : GithubMetadata) : CursorMetadata :=
  match github_meta.apply_to with
  | some apply_to =>
    if apply_to = "**" then
      { CursorMetadata.mkDefault with
        description := github_meta.description
        always_apply := some true
        globs := some [] }
    else
      { CursorMetadata.mkDefault with
        description := github_meta.description
        always_apply := some false
        globs := some ((strSplitOn apply_to ',').map strTrim) }
  | none => { CursorMetadata.mkDefault with description := github_meta.description }

/-- The typed error of a failed per-file conversion, carrying the
context message built at c2g.rs line 91, which includes the
preprocessed (normalized) frontmatter text. -/
structure ConvError where
  message : String
  normalized : String
deriving DecidableEq, Repr

/-- Function `convert_mdc_to_md` (c2g.rs lines 79-127) on one file content,
abstracted over the strict YAML decoder `decodeCursor` (the external
`serde_yaml::from_str` with `deserialize_globs` plugged in). The
returned `Except.ok` value is the exact content written to the target
file; `Except.error` means the function returns before any write. -/
def convert_mdc_to_md (decodeCursor : String → Except String CursorMetadata)
    (content : String) : Except ConvError String :=
  match (parse_frontmatter_with_field_info content).1 with
  | some fm =>
    match decodeCursor (preprocess_frontmatter fm) with
    | Except.error e =>
      Except.error { message := e, normalized := preprocess_frontmatter fm }
    | Except.ok cursor_meta =>
      Except.ok ("---\n"
        ++ serialize_github_metadata
            (convert_metadata_c2g cursor_meta
              (parse_frontmatter_with_field_info content).2.2)
        ++ "---\n\n" ++ (parse_frontmatter_with_field_info content).2.1)
  | none => Except.ok (parse_frontmatter_with_field_info content).2.1

/-- The batch loop of `convert_cursor_to_github` (c2g.rs lines 30-66):
each file is converted independently; an error is recorded and the loop
continues with the next file. -/
def convert_cursor_to_github (decodeCursor : String → Except String CursorMetadata)
    (files : List String) : List (Except ConvError String) :=
  files.map (convert_mdc_to_md decodeCursor)

/-- The target files actually written by a batch: one per successful
conversion, none for a failed one. -/
def writtenOutputs (results : List (Except ConvError String)) : List String :=
  results.filterMap (fun r =>
    match r with
    | Except.ok out => some out
    | Except.error _ => none)

/-- A sample schema A record with a two-element glob list. -/
def sampleCursorGlobs : CursorMetadata :=
  ⟨none, none, some ["a", "b"], some false, none, none, none⟩

/-- A sample schema A record with the always-apply flag set. -/
def sampleCursorAlways : CursorMetadata :=
  ⟨none, some "dd", none, some true, none, none, none⟩

/-- A sample schema B record carrying the match-everything pattern. -/
def sampleGithubStar : GithubMetadata := ⟨some "d", some "**", false, false⟩

/-- A decoder that rejects every input, used to exercise the error path. -/
def failingDecoder : String → Except String CursorMetadata :=
  fun _ => Except.error "boom"

/-- C1 (counterexample): the claimed biconditional fails on the code. A
record whose always-apply flag is `some false` and whose glob list is
the one-element list containing the match-everything pattern also
translates to the apply-to string consisting of two asterisks, because
joining a one-element list returns its element unchanged. -/
theorem c1_counterexample :
    (convert_metadata_c2g ⟨none, none, some ["**"], some false, none, none, none⟩
      ⟨false, false⟩).apply_to = some "**"
    ∧ (⟨none, none, some ["**"], some false, none, none, none⟩ :
        CursorMetadata).always_apply ≠ some true := by
  decide

/-- C1 (amended): in the A-to-B translation the description carries over
unchanged; the apply-to string is the match-everything pattern if the
always-apply flag is exactly true; otherwise, a non-empty glob list
yields the comma-join of its items (which can coincide with the
match-everything pattern), and an absent or empty glob list yields an
absent apply-to. -/
theorem c1_translation_a_to_b (cm : CursorMetadata) (fi : FieldInfo) :
    (convert_metadata_c2g cm fi).description = cm.description
    ∧ (cm.always_apply = some true →
        (convert_metadata_c2g cm fi).apply_to = some "**")
    ∧ (cm.always_apply ≠ some true →
        ((∃ gs, cm.globs = some gs ∧ gs ≠ []
            ∧ (convert_metadata_c2g cm fi).apply_to = some (joinSep "," gs))
         ∨ ((cm.globs = none ∨ cm.globs = some [])
            ∧ (convert_metadata_c2g cm fi).apply_to = none))) := by
  refine ⟨rfl, fun h => ?_, fun h => ?_⟩
  · simp [convert_metadata_c2g, h]
  · rcases hg : cm.globs with _ | gs
    · exact Or.inr ⟨Or.inl rfl, by simp [convert_metadata_c2g, h, hg]⟩
    · cases gs with
      | nil => exact Or.inr ⟨Or.inr rfl, by simp [convert_metadata_c2g, h, hg]⟩
      | cons a as =>
        exact Or.inl ⟨a :: as, rfl, by simp, by simp [convert_metadata_c2g, h, hg]⟩

/-- C1 (witness): the amended theorem evaluated at a record with flag
`some false` and glob list `["a", "b"]`. -/
theorem c1_translation_a_to_b_witness :
    sampleCursorGlobs.always_apply ≠ some true
    ∧ ((∃ gs, sampleCursorGlobs.globs = some gs ∧ gs ≠ []
          ∧ (convert_metadata_c2g sampleCursorGlobs ⟨true, true⟩).apply_to
            = some (joinSep "," gs))
       ∨ ((sampleCursorGlobs.globs = none ∨ sampleCursorGlobs.globs = some [])
          ∧ (convert_metadata_c2g sampleCursorGlobs ⟨true, true⟩).apply_to = none)) :=
  ⟨by decide, (c1_translation_a_to_b sampleCursorGlobs ⟨true, true⟩).2.2 (by decide)⟩

/-- C2: in the B-to-A translation the description carries over
unchanged; an apply-to equal to the match-everything pattern sets
always-apply to true and the glob list to a present empty list; any
other present apply-to sets always-apply to false and the glob list to
the comma-split, trimmed pieces; an absent apply-to leaves both
always-apply and the glob list absent. -/
theorem c2_translation_b_to_a (gm : GithubMetadata) :
    (convert_metadata_g2c gm).description = gm.description
    ∧ (gm.apply_to = some "**" →
        (convert_metadata_g2c gm).always_apply = some true
        ∧ (convert_metadata_g2c gm).globs = some [])
    ∧ (∀ s, gm.apply_to = some s → s ≠ "**" →
        (convert_metadata_g2c gm).always_apply = some false
        ∧ (convert_metadata_g2c gm).globs = some ((strSplitOn s ',').map strTrim))
    ∧ (gm.apply_to = none →
        (convert_metadata_g2c gm).always_apply = none
        ∧ (convert_metadata_g2c gm).globs = none) := by
  refine ⟨?_, fun h => ?_, fun s hs hne => ?_, fun h => ?_⟩
  · rcases hg : gm.apply_to with _ | s
    · simp [convert_metadata_g2c, hg]
    · by_cases he : s = "**" <;> simp [convert_metadata_g2c, hg, he]
  · simp [convert_metadata_g2c, h]
  · simp [convert_metadata_g2c, hs, hne]
  · simp [convert_metadata_g2c, h, CursorMetadata.mkDefault]

/-- C2 (witness): the theorem evaluated at a record whose apply-to is
the match-everything pattern. -/
theorem c2_translation_b_to_a_witness :
    (convert_metadata_g2c sampleGithubStar).always_apply = some true
    ∧ (convert_metadata_g2c sampleGithubStar).globs = some [] :=
  (c2_translation_b_to_a sampleGithubStar).2.1 rfl

/-- C3: translating A to B and then B to A preserves the description
exactly; when the source has always-apply true, the intermediate B
record carries the match-everything apply-to and the final A record has
always-apply true with a present, empty glob list. -/
theorem c3_round_trip (cm : CursorMetadata) (fi : FieldInfo) :
    (convert_metadata_g2c (convert_metadata_c2g cm fi)).description = cm.description
    ∧ (cm.always_apply = some true →
        (convert_metadata_c2g cm fi).apply_to = some "**"
        ∧ (convert_metadata_g2c (convert_metadata_c2g cm fi)).always_apply = some true
        ∧ (convert_metadata_g2c (convert_metadata_c2g cm fi)).globs = some []) := by
  constructor
  · have hdesc : (convert_metadata_c2g cm fi).description = cm.description := rfl
    rcases hg : (convert_metadata_c2g cm fi).apply_to with _ | s
    · simp [convert_metadata_g2c, hg, hdesc]
    · by_cases he : s = "**" <;> simp [convert_metadata_g2c, hg, he, hdesc]
  · intro h
    have h1 : (convert_metadata_c2g cm fi).apply_to = some "**" := by
      simp [convert_metadata_c2g, h]
    exact ⟨h1, by simp [convert_metadata_g2c, h1], by simp [convert_metadata_g2c, h1]⟩

/-- C3 (witness): the round trip evaluated at a record with always-apply
true. -/
theorem c3_round_trip_witness :
    (convert_metadata_c2g sampleCursorAlways ⟨true, false⟩).apply_to = some "**"
    ∧ (convert_metadata_g2c
        (convert_metadata_c2g sampleCursorAlways ⟨true, false⟩)).always_apply = some true
    ∧ (convert_metadata_g2c
        (convert_metadata_c2g sampleCursorAlways ⟨true, false⟩)).globs = some [] :=
  (c3_round_trip sampleCursorAlways ⟨true, false⟩).2 rfl

/-- If no line of the scanned suffix trims to three hyphens, the
delimiter scan fails. -/
theorem findDelimAux_eq_none (ls : List String) (i : Nat)
    (h : ∀ l ∈ ls, strTrim l ≠ "---") : findDelimAux ls i = none := by
  induction ls generalizing i with
  | nil => rfl
  | cons a as ih =>
    simp only [findDelimAux]
    rw [if_neg (h a (List.mem_cons_self a as))]
    exact ih _ (fun l hl => h l (List.mem_cons_of_mem a hl))

/-- C5: a document whose trimmed text does not start with the
three-hyphen marker, or has fewer than 3 lines, or has no line after
the first that trims to exactly three hyphens, splits into no header
and a body equal to the whole trimmed text. -/
theorem c5_degraded_splitting (content : String)
    (h : strStartsWith (strTrim content) "---" = false
       ∨ (rlines (strTrim content)).length < 3
       ∨ ∀ l ∈ (rlines (strTrim content)).drop 1, strTrim l ≠ "---") :
    (parse_frontmatter_with_field_info content).1 = none
    ∧ (parse_frontmatter_with_field_info content).2.1 = strTrim content := by
  unfold parse_frontmatter_with_field_info
  rcases h with h | h | h
  · simp [h]
  · by_cases hs : strStartsWith (strTrim content) "---" = true
    · simp [hs, h]
    · simp [hs]
  · by_cases hs : strStartsWith (strTrim content) "---" = true
    · by_cases hl : (rlines (strTrim content)).length < 3
      · simp [hs, hl]
      · have hend : find_frontmatter_end (rlines (strTrim content)) = none := by
          unfold find_frontmatter_end
          exact findDelimAux_eq_none _ _ h
        simp [hs, hl, hend]
    · simp [hs]

/-- C5 (witness): the degraded splitting evaluated on a plain text
document without any delimiter. -/
theorem c5_degraded_splitting_witness :
    (strStartsWith (strTrim "just a body") "---" = false
       ∨ (rlines (strTrim "just a body")).length < 3
       ∨ ∀ l ∈ (rlines (strTrim "just a body")).drop 1, strTrim l ≠ "---")
    ∧ (parse_frontmatter_with_field_info "just a body").1 = none
    ∧ (parse_frontmatter_with_field_info "just a body").2.1 = strTrim "just a body" :=
  ⟨Or.inl (by decide), c5_degraded_splitting "just a body" (Or.inl (by decide))⟩

/-- C6 (counterexample): the splitter only checks that the trimmed text
starts with the three-hyphen marker, not that the first line equals it.
A document whose first line is four hyphens still yields a header,
contradicting the claim that such a document has no header. -/
theorem c6_counterexample :
    (rlines (strTrim "----\nx\n---\ny")).head? = some "----"
    ∧ strTrim "----" ≠ "---"
    ∧ (parse_frontmatter_with_field_info "----\nx\n---\ny").1 = some "x" := by
  decide

/-- C6 (amended): the opening condition is only that the trimmed
document text starts with the three-hyphen marker as a textual run (its
first line may carry extra characters); for every trimmed document not
starting with that run, splitting yields no header. -/
theorem c6_delimiter_amended (content : String)
    (h : strStartsWith (strTrim content) "---" = false) :
    (parse_frontmatter_with_field_info content).1 = none := by
  unfold parse_frontmatter_with_field_info
  simp [h]

/-- C6 (witness): the amended theorem evaluated on a plain document. -/
theorem c6_delimiter_amended_witness :
    strStartsWith (strTrim "plain text") "---" = false
    ∧ (parse_frontmatter_with_field_info "plain text").1 = none :=
  ⟨by decide, c6_delimiter_amended "plain text" (by decide)⟩

/-- A line whose guard is not satisfied passes through the normalizer
with only a newline appended. -/
theorem preprocessLine_eq_of_not_rewrite (line : String)
    (h : ∀ key rawValue, splitAtFirstColon line = some (key, rawValue) →
      ¬ (strTrim key = "globs" ∧ strContainsChar (strTrim rawValue) ',' = true
          ∧ strStartsWith (strTrim rawValue) "[" = false)) :
    preprocessLine line = line ++ "\n" := by
  unfold preprocessLine
  cases hsplit : splitAtFirstColon line with
  | none => rfl
  | some kv =>
    obtain ⟨key, rawValue⟩ := kv
    exact if_neg (h key rawValue hsplit)

/-- C7: the normalizer is idempotent on already-bracketed globs lines.
A line whose trimmed value after the first colon starts with an opening
bracket is kept unchanged (with the newline re-appended), and a header
all of whose globs-with-comma lines are already bracketed normalizes to
exactly its own lines. -/
theorem c7_normalization_idempotent :
    (∀ line key rawValue, splitAtFirstColon line = some (key, rawValue) →
        strStartsWith (strTrim rawValue) "[" = true →
        preprocessLine line = line ++ "\n")
    ∧ (∀ fm, (∀ line ∈ rlines fm, globsLineReady line = true) →
        preprocess_frontmatter fm
          = concatAll ((rlines fm).map (fun l => l ++ "\n"))) := by
  constructor
  · intro line key rawValue hsplit hbr
    apply preprocessLine_eq_of_not_rewrite
    intro k v hkv
    cases hsplit.symm.trans hkv
    rintro ⟨-, -, hbrf⟩
    exact absurd (hbr.symm.trans hbrf) (by decide)
  · intro fm h
    unfold preprocess_frontmatter
    have hmap : (rlines fm).map preprocessLine
        = (rlines fm).map (fun l => l ++ "\n") := by
      apply List.map_congr_left
      intro line hline
      apply preprocessLine_eq_of_not_rewrite
      intro key rawValue hkv
      have hg := h line hline
      unfold globsLineReady at hg
      rw [hkv] at hg
      exact of_decide_eq_true hg
    rw [hmap]

/-- C7 (witness): an already-bracketed globs line and an
already-bracketed header, both left unchanged. -/
theorem c7_normalization_idempotent_witness :
    preprocessLine "globs: [a]" = "globs: [a]" ++ "\n"
    ∧ preprocess_frontmatter "globs: [a, b]\ndescription: t"
      = concatAll ((rlines "globs: [a, b]\ndescription: t").map (fun l => l ++ "\n")) :=
  ⟨c7_normalization_idempotent.1 "globs: [a]" "globs" " [a]" (by decide) (by decide),
   c7_normalization_idempotent.2 "globs: [a, b]\ndescription: t" (by decide)⟩

/-- String append at the data level. -/
theorem strData_append (a b : String) : (a ++ b).data = a.data ++ b.data := rfl

/-- Associativity of string append. -/
theorem strAppend_assoc (a b c : String) : a ++ b ++ c = a ++ (b ++ c) := by
  apply String.ext
  simp [strData_append]

/-- C8: a field recorded as textually present is always re-emitted (its
section starts with the bare key), as key with explicit empty value when
the translated value is absent or empty; a field never present and
absent after translation is omitted; the serializer is the description
section followed by the applyTo section. -/
theorem c8_presence_reencoding (m : GithubMetadata) :
    serialize_github_metadata m = serializeDescription m ++ serializeApplyTo m
    ∧ (m.description_present = true →
        ∃ rest, serializeDescription m = "description:" ++ rest)
    ∧ (m.description_present = true →
        (m.description = none ∨ m.description = some "") →
        serializeDescription m = "description:\n")
    ∧ (m.description_present = false → m.description = none →
        serializeDescription m = "")
    ∧ (m.apply_to_present = true →
        ∃ rest, serializeApplyTo m = "applyTo:" ++ rest)
    ∧ (m.apply_to_present = true →
        (m.apply_to = none ∨ m.apply_to = some "") →
        serializeApplyTo m = "applyTo:\n")
    ∧ (m.apply_to_present = false → m.apply_to = none →
        serializeApplyTo m = "") := by
  refine ⟨rfl, fun hp => ?_, fun hp hd => ?_, fun hp hd => ?_,
    fun hp => ?_, fun hd hp => ?_, fun hp hd => ?_⟩
  · cases hd : m.description with
    | none => exact ⟨"\n", by simp [serializeDescription, hp, hd]⟩
    | some d =>
      by_cases he : strIsEmpty d = true
      · exact ⟨"\n", by simp [serializeDescription, hp, hd, he]⟩
      · refine ⟨" " ++ dquoteStr ++ d ++ dquoteStr ++ "\n", ?_⟩
        simp [serializeDescription, hp, hd, he, ← strAppend_assoc]
  · rcases hd with hd | hd
    · simp [serializeDescription, hp, hd]
    · simp [serializeDescription, hp, hd, show strIsEmpty "" = true from by decide]
  · simp [serializeDescription, hp, hd]
  · cases ha : m.apply_to with
    | none => exact ⟨"\n", by simp [serializeApplyTo, hp, ha]⟩
    | some a =>
      by_cases he : strIsEmpty a = true
      · exact ⟨"\n", by simp [serializeApplyTo, hp, ha, he]⟩
      · refine ⟨" " ++ dquoteStr ++ a ++ dquoteStr ++ "\n", ?_⟩
        simp [serializeApplyTo, hp, ha, he, ← strAppend_assoc]
  · rcases hp with hp | hp
    · simp [serializeApplyTo, hd, hp]
    · simp [serializeApplyTo, hd, hp, show strIsEmpty "" = true from by decide]
  · simp [serializeApplyTo, hp, hd]

/-- C8 (witness): both fields present with empty or absent values are
re-emitted as bare keys; both fields never present and absent are
omitted. -/
theorem c8_presence_reencoding_witness :
    serializeDescription ⟨none, some "", true, true⟩ = "description:\n"
    ∧ serializeApplyTo ⟨none, some "", true, true⟩ = "applyTo:\n"
    ∧ serializeDescription ⟨none, none, false, false⟩ = ""
    ∧ serializeApplyTo ⟨none, none, false, false⟩ = "" :=
  ⟨(c8_presence_reencoding ⟨none, some "", true, true⟩).2.2.1 rfl (Or.inl rfl),
   (c8_presence_reencoding ⟨none, some "", true, true⟩).2.2.2.2.2.1 rfl (Or.inr rfl),
   (c8_presence_reencoding ⟨none, none, false, false⟩).2.2.2.1 rfl rfl,
   (c8_presence_reencoding ⟨none, none, false, false⟩).2.2.2.2.2.2 rfl rfl⟩

/-- C9: when the normalized header of a file fails strict decoding, the
conversion of that file returns the error carrying the normalized text,
the batch maps every other file exactly as if the failing file were
processed alone, and the written outputs of the batch are exactly those
of the surrounding files — nothing is written for the failing file. -/
theorem c9_error_containment
    (decode : String → Except String CursorMetadata) (content fm msg : String)
    (pre post : List String)
    (h1 : (parse_frontmatter_with_field_info content).1 = some fm)
    (h2 : decode (preprocess_frontmatter fm) = Except.error msg) :
    convert_mdc_to_md decode content
      = Except.error ⟨msg, preprocess_frontmatter fm⟩
    ∧ convert_cursor_to_github decode (pre ++ content :: post)
      = convert_cursor_to_github decode pre
        ++ Except.error ⟨msg, preprocess_frontmatter fm⟩
          :: convert_cursor_to_github decode post
    ∧ writtenOutputs (convert_cursor_to_github decode (pre ++ content :: post))
      = writtenOutputs (convert_cursor_to_github decode pre)
        ++ writtenOutputs (convert_cursor_to_github decode post) := by
  have hconv : convert_mdc_to_md decode content
      = Except.error ⟨msg, preprocess_frontmatter fm⟩ := by
    unfold convert_mdc_to_md
    rw [h1]
    simp [h2]
  refine ⟨hconv, ?_, ?_⟩
  · unfold convert_cursor_to_github
    rw [List.map_append, List.map_cons, hconv]
  · unfold convert_cursor_to_github writtenOutputs
    rw [List.map_append, List.map_cons, hconv, List.filterMap_append,
      List.filterMap_cons]

/-- C9 (witness): a batch of three files whose middle file has a header
rejected by the decoder; the error carries the normalized header, and
the outputs are those of the two good files. -/
theorem c9_error_containment_witness :
    (parse_frontmatter_with_field_info "---\nname: x\n---\nbody").1 = some "name: x"
    ∧ failingDecoder (preprocess_frontmatter "name: x") = Except.error "boom"
    ∧ convert_mdc_to_md failingDecoder "---\nname: x\n---\nbody"
      = Except.error ⟨"boom", preprocess_frontmatter "name: x"⟩
    ∧ convert_cursor_to_github failingDecoder
        (["plain"] ++ "---\nname: x\n---\nbody" :: ["also plain"])
      = convert_cursor_to_github failingDecoder ["plain"]
        ++ Except.error ⟨"boom", preprocess_frontmatter "name: x"⟩
          :: convert_cursor_to_github failingDecoder ["also plain"]
    ∧ writtenOutputs (convert_cursor_to_github failingDecoder
        (["plain"] ++ "---\nname: x\n---\nbody" :: ["also plain"]))
      = writtenOutputs (convert_cursor_to_github failingDecoder ["plain"])
        ++ writtenOutputs (convert_cursor_to_github failingDecoder ["also plain"]) := by
  have h := c9_error_containment failingDecoder "---\nname: x\n---\nbody" "name: x"
    "boom" ["plain"] ["also plain"] (by decide) rfl
  exact ⟨by decide, rfl, h.1, h.2.1, h.2.2⟩

/-- C4: evaluation of the globs interpreter. The value from the claim
decodes to exactly the two-element list, but the comma branch does not
return a list on every string: the value whose second piece is a lone
double-quote character makes the quote-stripping slice panic. -/
theorem c4_globs_interpreter :
    deserialize_globs (GlobsValue.vstr "**/a/**,**/b/**")
      = some (some ["**/a/**", "**/b/**"])
    ∧ deserialize_globs (GlobsValue.vseq ["x", "y"]) = some (some ["x", "y"])
    ∧ deserialize_globs GlobsValue.vnull = some none
    ∧ deserialize_globs (GlobsValue.vstr ("a," ++ dquoteStr)) = none := by
  decide

/-- C10: the string branch is not panic-free. On the string consisting
of a single quote character the surrounding-quote test succeeds (the
same character is both the first and the last), and the slice from
index 1 to length minus 1 is the reversed range `[1..0]`, which panics
in Rust; the model returns `none` at exactly that step. -/
theorem c10_quote_strip_panics :
    removeSurroundingQuotes squoteStr = none
    ∧ visitGlobsStr squoteStr = none
    ∧ deserialize_globs (GlobsValue.vstr squoteStr) = none := by
  decide

end Ruler
